import Mathlib

/-!
Shallow embedding of the enterprise LLM adaptation layer of this repository:
the resilient HTTP transport with retry (LlmHttpClient.requestWithHandling),
the countTokens 404 fallback, the fake-stream generator, request-body
serialization, redaction-aware logging, the two local token estimators,
the endpoint gate (EnterpriseContentGenerator), and the SSO auth client
with its credential cache.

Conventions of the embedding:
- JavaScript runtime values are modelled by `JsValue` (JSON-representable
  values; `undefined` and a missing field are both modelled as `JsValue.null`,
  which has the same truthiness and the same behaviour in every code path
  the claims exercise).
- Machine numbers are modelled as `Nat`/`Int`; all arithmetic the source
  performs on them (`Math.ceil` of a nonnegative division, sums, products)
  stays within exact integers, so no overflow or float modelling is needed.
- `Math.ceil(x / n)` on a nonnegative integer x is `(x + n - 1) / n` in Nat.
- Property access `o.k` on a non-object, or on an object lacking the key,
  yields `undefined` in JS and `JsValue.null` here.
- `x.length` is modelled by `jsLength`: string length or array length, and 0
  otherwise (the source only reads `.length` behind truthiness guards or a
  trailing `|| 0`; a truthy non-string non-array there would make the source
  compute NaN, which no claim exercises and which the model renders as 0).
- Asynchronous I/O is modelled by passing outcomes explicitly: an HTTP
  transport is a function from the attempt index to that attempt's outcome,
  the SSO endpoint is an optional `(id_token, expires_in)` reply, and the
  filesystem is a map from paths to values.
-/

/-- Model of a JavaScript (JSON) runtime value. -/
inductive JsValue where
  | null
  | bool (b : Bool)
  | num (n : Int)
  | str (s : String)
  | arr (items : List JsValue)
  | obj (fields : List (String × JsValue))

/-- JavaScript truthiness: null/undefined, false, 0 and the empty string are
falsy; every array and object is truthy. -/
def truthy : JsValue → Bool
  | .null => false
  | .bool b => b
  | .num n => n != 0
  | .str s => s != ""
  | .arr _ => true
  | .obj _ => true

/-- Key presence test, modelling the JavaScript `'k' in o` operator on a
plain object. -/
def hasKey (fields : List (String × JsValue)) (k : String) : Bool :=
  fields.any (fun kv => kv.1 == k)

/-- Property access `o.k`, yielding `JsValue.null` for a missing key or a
non-object receiver (both behave as `undefined` in the source paths
modelled here). -/
def getField (v : JsValue) (k : String) : JsValue :=
  match v with
  | .obj fields => (List.lookup k fields).getD .null
  | _ => .null

/-- Model of the JavaScript `.length` read: defined for strings and arrays,
and 0 otherwise (see the module docstring). -/
def jsLength : JsValue → Nat
  | .str s => s.length
  | .arr items => items.length
  | _ => 0

mutual

/-- Model of JavaScript `String(v)` coercion. -/
def jsToString : JsValue → String
  | .null => "null"
  | .bool true => "true"
  | .bool false => "false"
  | .num n => toString n
  | .str s => s
  | .arr items => jsToStringElems items
  | .obj _ => "[object Object]"

/-- Array-to-string: elements joined with commas; null/undefined elements
render as the empty string. -/
def jsToStringElems : List JsValue → String
  | [] => ""
  | [JsValue.null] => ""
  | [v] => jsToString v
  | JsValue.null :: rest => "," ++ jsToStringElems rest
  | v :: rest => jsToString v ++ "," ++ jsToStringElems rest

end

/-- Escape of one character inside a JSON string literal (quote, backslash
and newline; other control characters do not occur in the values the
claims exercise). -/
def jsonEscapeChar (c : Char) : String :=
  if c = '"' then "\\\""
  else if c = '\\' then "\\\\"
  else if c = '\n' then "\\n"
  else String.singleton c

/-- JSON string literal with quotes. -/
def jsonQuote (s : String) : String :=
  "\"" ++ String.join (s.data.map jsonEscapeChar) ++ "\""

mutual

/-- Model of `JSON.stringify` (compact form, as used when the client embeds
a response body into a consolidated error message). -/
def jsonStringify : JsValue → String
  | .null => "null"
  | .bool true => "true"
  | .bool false => "false"
  | .num n => toString n
  | .str s => jsonQuote s
  | .arr items => "[" ++ jsonStringifyElems items ++ "]"
  | .obj fields => "\x7b" ++ jsonStringifyFields fields ++ "\x7d"

/-- Comma-joined serialization of array elements. -/
def jsonStringifyElems : List JsValue → String
  | [] => ""
  | [v] => jsonStringify v
  | v :: rest => jsonStringify v ++ "," ++ jsonStringifyElems rest

/-- Comma-joined serialization of object fields. -/
def jsonStringifyFields : List (String × JsValue) → String
  | [] => ""
  | [(k, v)] => jsonQuote k ++ ":" ++ jsonStringify v
  | (k, v) :: rest => jsonQuote k ++ ":" ++ jsonStringify v ++ "," ++ jsonStringifyFields rest

end

namespace LlmHttpClient

/-- Sensitive field names, from LlmHttpClient.redactSensitive
(fetch.ts line 427). -/
def SENSITIVE_KEYS : List String :=
  ["accessToken", "token", "id_token", "password", "Authorization"]

mutual

/-- Embedding of LlmHttpClient.redactSensitive (fetch.ts lines 424-440):
non-objects pass through, arrays are mapped elementwise, and object fields
whose key is sensitive are replaced by the string "REDACTED" while other
fields are redacted recursively. -/
def redactSensitive : JsValue → JsValue
  | .arr items => .arr (redactSensitiveList items)
  | .obj fields => .obj (redactSensitiveFields fields)
  | v => v

/-- Elementwise redaction of an array (the `obj.map` branch). -/
def redactSensitiveList : List JsValue → List JsValue
  | [] => []
  | v :: rest => redactSensitive v :: redactSensitiveList rest

/-- Fieldwise redaction of an object (the `Object.keys` loop). -/
def redactSensitiveFields : List (String × JsValue) → List (String × JsValue)
  | [] => []
  | (k, v) :: rest =>
      (if SENSITIVE_KEYS.contains k then (k, JsValue.str "REDACTED")
       else (k, redactSensitive v)) :: redactSensitiveFields rest

end

mutual

/-- Specification-side check: every field keyed by a sensitive name, at any
nesting depth, holds exactly the string "REDACTED". -/
def redactedOk : JsValue → Bool
  | .arr items => redactedOkList items
  | .obj fields => redactedOkFields fields
  | _ => true

/-- Check every array element. -/
def redactedOkList : List JsValue → Bool
  | [] => true
  | v :: rest => redactedOk v && redactedOkList rest

/-- Check every object field. -/
def redactedOkFields : List (String × JsValue) → Bool
  | [] => true
  | (k, v) :: rest =>
      (if SENSITIVE_KEYS.contains k then
        match v with
        | .str s => s == "REDACTED"
        | _ => false
       else redactedOk v) && redactedOkFields rest

end

mutual

/-- Whether a value contains a sensitive field name at any nesting depth. -/
def hasSensitiveKey : JsValue → Bool
  | .arr items => hasSensitiveKeyList items
  | .obj fields => hasSensitiveKeyFields fields
  | _ => false

/-- Sensitive-key search over array elements. -/
def hasSensitiveKeyList : List JsValue → Bool
  | [] => false
  | v :: rest => hasSensitiveKey v || hasSensitiveKeyList rest

/-- Sensitive-key search over object fields. -/
def hasSensitiveKeyFields : List (String × JsValue) → Bool
  | [] => false
  | (k, v) :: rest =>
      SENSITIVE_KEYS.contains k || hasSensitiveKey v || hasSensitiveKeyFields rest

end

/-- Per-part token estimate of LlmHttpClient.estimateTokenCount
(fetch.ts lines 547-551): text adds ceil(length/4), a function call adds 15,
inline binary data adds ceil(byteLength/100). -/
def estimatePartTokens (part : JsValue) : Nat :=
  (if truthy (getField part "text") then (jsLength (getField part "text") + 3) / 4 else 0)
  + (if truthy (getField part "functionCall") then 15 else 0)
  + (if truthy (getField part "inlineData") then
      (jsLength (getField (getField part "inlineData") "data") + 99) / 100
     else 0)

/-- Per-item token estimate of LlmHttpClient.estimateTokenCount
(fetch.ts lines 545-555): an object carrying a `parts` key contributes its
parts (iterating `item.parts || []`) plus 5 when a role tag is present;
any other item contributes ceil(String(item).length/4). -/
def estimateItemTokens (item : JsValue) : Nat :=
  match item with
  | .obj fields =>
      if hasKey fields "parts" then
        (match (if truthy (getField item "parts") then getField item "parts" else .arr []) with
          | .arr parts => (parts.map estimatePartTokens).sum
          | _ => 0)
        + (if truthy (getField item "role") then 5 else 0)
      else ((jsToString item).length + 3) / 4
  | other => ((jsToString other).length + 3) / 4

/-- Embedding of the private LlmHttpClient.estimateTokenCount
(fetch.ts lines 538-561): strings return ceil(length/4) directly; arrays sum
the per-item estimates, add ceil(3*length) formatting overhead, and floor
the total at 1; anything else returns 1. -/
def estimateTokenCount (contents : JsValue) : Nat :=
  match contents with
  | .str s => (s.length + 3) / 4
  | .arr items => Nat.max 1 ((items.map estimateItemTokens).sum + 3 * items.length)
  | _ => 1

end LlmHttpClient

namespace ContentGenerator

/-- Per-part token estimate of the module-level estimateTokenCount in
contentGenerator.ts (lines 85-105). -/
def estimatePartTokens (part : JsValue) : Nat :=
  (if truthy (getField part "text") then (jsLength (getField part "text") + 3) / 4 else 0)
  + (if truthy (getField part "functionCall") then 15 else 0)
  + (if truthy (getField part "inlineData") then
      (jsLength (getField (getField part "inlineData") "data") + 99) / 100
     else 0)

/-- Per-item token estimate of the module-level estimateTokenCount in
contentGenerator.ts (lines 79-117): a Content object (an object with a
`parts` key) contributes its parts when `parts` is truthy, plus 5 when a
role tag is present; any other item contributes
ceil(String(content).length/4). -/
def estimateItemTokens (content : JsValue) : Nat :=
  match content with
  | .obj fields =>
      if hasKey fields "parts" then
        (if truthy (getField content "parts") then
          (match getField content "parts" with
            | .arr parts => (parts.map estimatePartTokens).sum
            | _ => 0)
         else 0)
        + (if truthy (getField content "role") then 5 else 0)
      else ((jsToString content).length + 3) / 4
  | other => ((jsToString other).length + 3) / 4

/-- Embedding of the module-level estimateTokenCount in contentGenerator.ts
(lines 69-124): strings return ceil(length/4) directly (before the final
floor); arrays sum the per-item estimates plus ceil(3*length) overhead; the
final `Math.max(1, totalTokens)` applies to every non-string path. -/
def estimateTokenCount (contents : JsValue) : Nat :=
  match contents with
  | .str s => (s.length + 3) / 4
  | .arr items => Nat.max 1 ((items.map estimateItemTokens).sum + 3 * items.length)
  | _ => Nat.max 1 0

end ContentGenerator

namespace LlmHttpClient

/-- Outcome of one gaxios transport attempt: the promise resolves with a
response, rejects with an error carrying a response, or rejects with a
network-level error carrying no response (code and message). -/
inductive AttemptOutcome where
  | resolved (status : Nat) (data : JsValue)
  | rejectedResponse (status : Nat) (statusText : String) (url : String) (data : JsValue)
  | rejectedNetwork (code : Option String) (message : String)

/-- The `lastError` the retry loop remembers: either an error with an
attached response, or one without (network failures, timeouts, and the
synthetic `Server error` thrown for a resolved 5xx response). -/
inductive LastError where
  | withResponse (status : Nat) (statusText : String) (url : String) (data : JsValue)
  | noResponse (code : Option String) (message : String)

/-- Consolidated error message built after the loop (fetch.ts lines 377-388):
HTTP status, status text and URL when a response is available (plus the
redacted body when truthy), "Request timed out" for ECONNABORTED, else the
raw message. -/
def consolidatedErrorMessage : Option LastError → String
  | none => "[LlmHttpClient] Request failed"
  | some (.withResponse status statusText url data) =>
      let base := "[LlmHttpClient] Request failed: HTTP " ++ toString status ++ " "
        ++ statusText ++ " at " ++ url
      if truthy data then base ++ "\nResponse: " ++ jsonStringify (redactSensitive data)
      else base
  | some (.noResponse code message) =>
      if code == some "ECONNABORTED" then "[LlmHttpClient] Request failed: Request timed out"
      else if message != "" then "[LlmHttpClient] Request failed: " ++ message
      else "[LlmHttpClient] Request failed"

/-- Result of one iteration body: either the loop returns the response, or
it records a failure together with the retryability test
`isNetworkError || is5xx` of fetch.ts lines 352-355. -/
inductive AttemptStep where
  | success (status : Nat) (data : JsValue)
  | failure (err : LastError) (retryable : Bool)

/-- Classification of an attempt outcome by the try/catch of fetch.ts lines
342-375: a resolved 5xx response is rethrown as a response-less `Server
error` (hence network-like and retryable); a rejection with a response is
retryable exactly when its status is 5xx; a rejection without a response is
always retryable. -/
def classifyAttempt : AttemptOutcome → AttemptStep
  | .resolved status data =>
      if 500 ≤ status ∧ status < 600 then
        .failure (.noResponse none ("Server error: " ++ toString status)) true
      else .success status data
  | .rejectedResponse status statusText url data =>
      .failure (.withResponse status statusText url data)
        (decide (500 ≤ status ∧ status < 600))
  | .rejectedNetwork code message => .failure (.noResponse code message) true

/-- Observable result of requestWithHandling: the returned response (status
and data) or the consolidated error message, together with the number of
transport attempts performed and the list of backoff delays slept. -/
structure RequestRunResult where
  outcome : Except String (Nat × JsValue)
  attempts : Nat
  delays : List Nat

/-- Embedding of the while loop of requestWithHandling (fetch.ts lines
340-376). `attempt` is the loop counter; the structural `fuel` argument
equals `maxAttempts - attempt`, so `fuel = 0` is exactly the loop guard
`attempt < maxAttempts` failing. On a failure the counter is incremented,
the break condition `attempt >= maxAttempts || (!isNetworkError && !is5xx)`
is tested, and otherwise the loop sleeps `300 * 2 ^ (attempt - 1)`
milliseconds (post-increment value) and retries. -/
def requestLoop (transport : Nat → AttemptOutcome) (maxAttempts : Nat) :
    Nat → Nat → Option LastError → List Nat → RequestRunResult
  | attempt, 0, lastError, delays =>
      ⟨.error (consolidatedErrorMessage lastError), attempt, delays⟩
  | attempt, fuel + 1, _, delays =>
      match classifyAttempt (transport attempt) with
      | .success status data => ⟨.ok (status, data), attempt + 1, delays⟩
      | .failure err retryable =>
          if attempt + 1 ≥ maxAttempts ∨ retryable = false then
            ⟨.error (consolidatedErrorMessage (some err)), attempt + 1, delays⟩
          else
            requestLoop transport maxAttempts (attempt + 1) fuel (some err)
              (delays ++ [300 * 2 ^ attempt])

/-- Embedding of LlmHttpClient.requestWithHandling (fetch.ts lines 335-390):
`maxAttemptsCfg` models `this.config.maxAttempts ?? 3`. -/
def requestWithHandling (transport : Nat → AttemptOutcome)
    (maxAttemptsCfg : Option Nat) : RequestRunResult :=
  requestLoop transport (maxAttemptsCfg.getD 3) 0 (maxAttemptsCfg.getD 3) none []

/-- Substring test modelling JavaScript `String.prototype.includes`. -/
def jsIncludes (needle hay : String) : Bool :=
  decide (needle.data <:+: hay.data)

/-- Embedding of LlmHttpClient.countTokens (fetch.ts lines 511-535), after
the transport has been resolved: a successful request returns its body; a
failed request whose consolidated message contains "404" is absorbed into
the local estimator fallback; any other failure is rethrown. -/
def countTokens (transport : Nat → AttemptOutcome) (maxAttemptsCfg : Option Nat)
    (contents : JsValue) : Except String JsValue :=
  match requestWithHandling transport maxAttemptsCfg with
  | ⟨.ok (_, data), _, _⟩ => .ok data
  | ⟨.error msg, _, _⟩ =>
      if jsIncludes "404" msg then
        .ok (.obj [("totalTokens", .num (estimateTokenCount contents))])
      else .error msg

/-- Embedding of the fake-stream generator of
LlmHttpClient.generateContentStream (fetch.ts lines 660-685), with I/O
resolved: `requestResult` is the outcome of the streamGenerateContent call
and `fallbackResult` the outcome generateContent would produce for the same
request. The value is the list of chunks the async generator yields, or the
error it throws. An array body yields one chunk per element, a truthy
non-array body yields itself once, a falsy body yields nothing, and a
failure whose message contains "404" falls back to a single
generateContent result. -/
def generateContentStream (requestResult : Except String JsValue)
    (fallbackResult : Except String JsValue) : Except String (List JsValue) :=
  match requestResult with
  | .ok responseData =>
      match responseData with
      | .arr items => .ok items
      | d => if truthy d then .ok [d] else .ok []
  | .error msg =>
      if jsIncludes "404" msg then
        match fallbackResult with
        | .ok single => .ok [single]
        | .error e => .error e
      else .error msg

/-- Keys removed from the generation config by the destructuring of
fetch.ts lines 450-460 (the four extracted fields plus the two
client-local-only fields); everything else lands in the rest object
`generationConfig`. -/
def DESTRUCTURED_KEYS : List String :=
  ["systemInstruction", "safetySettings", "tools", "toolConfig", "abortSignal", "httpOptions"]

/-- Embedding of the request-body construction of
LlmHttpClient.generateContent (fetch.ts lines 449-477): the config object is
destructured, a truthy systemInstruction is promoted to a role-tagged
content block, safetySettings/tools/toolConfig are included only when
truthy, and the rest object is included as generationConfig only when it
has at least one key. The trailing JSON.parse(JSON.stringify(data)) deep
copy is the identity on the JSON values modelled here. -/
def generateContentBody (contents : JsValue) (config : List (String × JsValue)) :
    List (String × JsValue) :=
  let systemInstruction := (List.lookup "systemInstruction" config).getD .null
  let safetySettings := (List.lookup "safetySettings" config).getD .null
  let tools := (List.lookup "tools" config).getD .null
  let toolConfig := (List.lookup "toolConfig" config).getD .null
  let generationConfig := config.filter (fun kv => !(DESTRUCTURED_KEYS.contains kv.1))
  [("contents", contents)]
  ++ (if truthy systemInstruction then
        [("systemInstruction", JsValue.obj
          [("role", .str "system"), ("parts", .arr [.obj [("text", systemInstruction)]])])]
      else [])
  ++ (if truthy safetySettings then [("safetySettings", safetySettings)] else [])
  ++ (if truthy tools then [("tools", tools)] else [])
  ++ (if truthy toolConfig then [("toolConfig", toolConfig)] else [])
  ++ (if generationConfig.length > 0 then [("generationConfig", JsValue.obj generationConfig)]
      else [])

end LlmHttpClient

namespace EnterpriseContentGenerator

/-- Endpoint availability configuration (contentGenerator.ts lines 48-53). -/
structure EnterpriseEndpointConfig where
  generateContent : Bool
  generateContentStream : Bool
  countTokens : Bool
  embedContent : Bool

/-- Mutable gate state: the set of endpoints whose one-time warning has
already been shown (contentGenerator.ts line 153). -/
structure GateState where
  warningsShown : List String

/-- Embedding of EnterpriseContentGenerator.showWarningOnce
(contentGenerator.ts lines 205-210): returns whether a warning was logged
by this call, and the updated state. -/
def showWarningOnce (st : GateState) (endpoint : String) : Bool × GateState :=
  if st.warningsShown.contains endpoint then (false, st)
  else (true, ⟨endpoint :: st.warningsShown⟩)

/-- Result of a gated countTokens call: a locally estimated total, or
delegation to the wrapped generator (which is what issues a network call). -/
inductive GateCountTokensOutcome where
  | estimated (totalTokens : Nat)
  | delegated

/-- Embedding of EnterpriseContentGenerator.countTokens (contentGenerator.ts
lines 186-196): when the endpoint is disabled, a one-time warning is
considered and the local estimator result is returned without delegating;
otherwise the call delegates. Returns (outcome, warningLogged, newState). -/
def countTokens (cfg : EnterpriseEndpointConfig) (st : GateState) (contents : JsValue) :
    GateCountTokensOutcome × Bool × GateState :=
  if !cfg.countTokens then
    let ws := showWarningOnce st "countTokens"
    (.estimated (ContentGenerator.estimateTokenCount contents), ws.1, ws.2)
  else (.delegated, false, st)

end EnterpriseContentGenerator

namespace SsoAuthClient

/-- State of the credential cache file `.ssotoken` as the client sees it
after the read-and-parse of getTokenFromCache: `absent` covers a missing,
unreadable or unparseable file (every failure of readFile or JSON.parse is
caught and mapped to null), and `stored` a parsed
field pair (the expiry is restricted to the numeric expiries the client
itself writes). -/
inductive CacheState where
  | absent
  | stored (token : JsValue) (expires_at : Int)

/-- Embedding of SsoAuthClient.getTokenFromCache (part_004 lines 12-23):
returns the stored token when `expires_at > Date.now()`, and null
otherwise. -/
def getTokenFromCache (cache : CacheState) (now : Int) : Option JsValue :=
  match cache with
  | .absent => none
  | .stored token expires_at => if expires_at > now then some token else none

/-- Observable outcome of getToken. -/
inductive GetTokenOutcome where
  | ok (token : JsValue)
  | configurationError
  | authenticationError

/-- Observable run of getToken: outcome, number of SSO network calls
performed, and the final cache state. -/
structure GetTokenRun where
  outcome : GetTokenOutcome
  networkCalls : Nat
  cache : CacheState

/-- Embedding of SsoAuthClient.getToken (part_004 lines 36-105), with I/O
resolved: `ssoResponse` is the reply of the single possible SSO POST, as
the pair (id_token, expires_in), or none when the POST fails. An empty
`ssoUrl` (unset SSO_SERVER) fails before any cache or network access. A
truthy cached token is returned with no network call; otherwise one POST is
made and, on success, the token is persisted via setTokenInCache (which
stamps `expires_at = Date.now() + expires_in * 1000`) before it is
returned. The two Date.now() reads of one run are modelled by a single
`now`. -/
def getToken (ssoUrl : String) (cache : CacheState) (now : Int)
    (ssoResponse : Option (String × Int)) : GetTokenRun :=
  if ssoUrl = "" then ⟨.configurationError, 0, cache⟩
  else
    let cachedToken := (getTokenFromCache cache now).getD .null
    if truthy cachedToken then ⟨.ok cachedToken, 0, cache⟩
    else
      match ssoResponse with
      | some (idToken, expiresIn) =>
          ⟨.ok (.str idToken), 1, .stored (.str idToken) (now + expiresIn * 1000)⟩
      | none => ⟨.authenticationError, 1, cache⟩

/-- Fixed relative path of the credential cache file (part_004 line 6). -/
def cachePath : String := ".ssotoken"

/-- Filesystem primitive operations, for observing how the cache write is
performed. -/
inductive FsOp where
  | write (path : String) (data : JsValue)
  | rename (src : String) (dst : String)

/-- Embedding of SsoAuthClient.setTokenInCache (part_004 lines 25-34) as
its trace of filesystem operations: a single fs.promises.writeFile of the
serialized credential object directly to the cache path. -/
def setTokenInCacheOps (token : String) (expiresIn : Int) (now : Int) : List FsOp :=
  [.write cachePath (.obj [("token", .str token), ("expires_at", .num (now + expiresIn * 1000))])]

/-- Effect of one filesystem operation on a path-to-content map (a write
replaces the full content of its path; a rename moves content). -/
def applyFsOp (fs : String → Option JsValue) : FsOp → (String → Option JsValue)
  | .write p d => fun q => if q = p then some d else fs q
  | .rename src dst => fun q =>
      if q = dst then fs src else if q = src then none else fs q

/-- Effect of a trace of filesystem operations. -/
def applyFsOps (fs : String → Option JsValue) (ops : List FsOp) : String → Option JsValue :=
  ops.foldl applyFsOp fs

/-- Specification-side predicate, following the spec's words "persists
atomically (write-then-rename or equivalent)": the trace writes the payload
to a temporary path and renames it onto the final path, and never writes
the final path directly. -/
def specAtomicWriteThenRename (ops : List FsOp) (finalPath : String) : Prop :=
  (∃ tmp payload, tmp ≠ finalPath ∧ FsOp.write tmp payload ∈ ops ∧
    FsOp.rename tmp finalPath ∈ ops) ∧
  ∀ payload, FsOp.write finalPath payload ∉ ops

end SsoAuthClient

namespace LlmHttpClient

/-- Whether an attempt outcome is a failure the retry loop would retry
(a network-level failure, a rejected 5xx response, or a resolved 5xx
response rethrown as a server error). -/
def isRetryableFailure (o : AttemptOutcome) : Bool :=
  match classifyAttempt o with
  | .failure _ retryable => retryable
  | .success _ _ => false

end LlmHttpClient

section EstimatorLemmas

theorem estimatePartTokens_agree (p : JsValue) :
    LlmHttpClient.estimatePartTokens p = ContentGenerator.estimatePartTokens p := rfl

theorem estimateItemTokens_agree (item : JsValue) :
    LlmHttpClient.estimateItemTokens item = ContentGenerator.estimateItemTokens item := by
  cases item with
  | obj fields =>
      simp only [LlmHttpClient.estimateItemTokens, ContentGenerator.estimateItemTokens]
      by_cases hk : hasKey fields "parts"
      · simp only [hk, if_true]
        cases htr : truthy (getField (JsValue.obj fields) "parts") with
        | false =>
            simp only [htr, if_false, Bool.false_eq_true]
            rfl
        | true =>
            rw [show LlmHttpClient.estimatePartTokens = ContentGenerator.estimatePartTokens from
              funext estimatePartTokens_agree]
            simp only [htr, if_true]
      · simp [hk]
  | null => rfl
  | bool b => rfl
  | num n => rfl
  | str s => rfl
  | arr items => rfl

theorem estimateItemTokens_funext :
    LlmHttpClient.estimateItemTokens = ContentGenerator.estimateItemTokens :=
  funext estimateItemTokens_agree

end EstimatorLemmas

/-- C10: the module-level estimateTokenCount of contentGenerator.ts and the
private LlmHttpClient.estimateTokenCount of fetch.ts are extensionally
equal: on every input value (string, content list, or anything else) they
return the same integer. -/
theorem estimateTokenCount_impls_agree (v : JsValue) :
    ContentGenerator.estimateTokenCount v = LlmHttpClient.estimateTokenCount v := by
  cases v with
  | arr items =>
      simp only [ContentGenerator.estimateTokenCount, LlmHttpClient.estimateTokenCount,
        estimateItemTokens_funext]
  | null => rfl
  | bool b => rfl
  | num n => rfl
  | str s => rfl
  | obj fields => rfl

/-- C3 counterexample: on the empty string both token estimators return 0,
not a value >= 1 — the string path returns ceil(length/4) before the
Math.max(1, _) floor is applied. -/
theorem estimateTokenCount_empty_string_cex :
    ¬ (1 ≤ ContentGenerator.estimateTokenCount (JsValue.str "")) ∧
    ¬ (1 ≤ LlmHttpClient.estimateTokenCount (JsValue.str "")) := by
  constructor <;> decide

/-- C3 (amended): both local token estimators return an integer >= 1 on
every input except a plain string of length 0: non-string inputs and
nonempty strings are floored at (or reach) 1, but the empty string returns
0 because the string path bypasses the floor. -/
theorem estimateTokenCount_ge_one (v : JsValue) (h : v ≠ JsValue.str "") :
    1 ≤ ContentGenerator.estimateTokenCount v ∧ 1 ≤ LlmHttpClient.estimateTokenCount v := by
  cases v with
  | str s =>
      have hs : s ≠ "" := by
        intro hcontra
        exact h (by rw [hcontra])
      have hlen : 1 ≤ s.length := by
        cases s with
        | mk data =>
          cases data with
          | nil => simp at hs
          | cons c cs => simp [String.length]
      constructor <;>
        · simp only [ContentGenerator.estimateTokenCount, LlmHttpClient.estimateTokenCount]
          omega
  | null => exact ⟨le_refl 1, le_refl 1⟩
  | bool b => exact ⟨le_refl 1, le_refl 1⟩
  | num n => exact ⟨le_refl 1, le_refl 1⟩
  | arr items =>
      exact ⟨Nat.le_max_left 1 _, Nat.le_max_left 1 _⟩
  | obj fields => exact ⟨le_refl 1, le_refl 1⟩

/-- Witness for estimateTokenCount_ge_one at the concrete input null. -/
theorem estimateTokenCount_ge_one_witness :
    JsValue.null ≠ JsValue.str "" ∧
    (1 ≤ ContentGenerator.estimateTokenCount JsValue.null ∧
     1 ≤ LlmHttpClient.estimateTokenCount JsValue.null) :=
  by
  have h : JsValue.null ≠ JsValue.str "" := fun h => nomatch h
  exact ⟨h, estimateTokenCount_ge_one JsValue.null h⟩

section RedactionLemmas

mutual

theorem redactedOk_redact : ∀ v, LlmHttpClient.redactedOk (LlmHttpClient.redactSensitive v) = true
  | .null => rfl
  | .bool b => rfl
  | .num n => rfl
  | .str s => rfl
  | .arr items => by
      simpa [LlmHttpClient.redactSensitive, LlmHttpClient.redactedOk] using
        redactedOkList_redactList items
  | .obj fields => by
      simpa [LlmHttpClient.redactSensitive, LlmHttpClient.redactedOk] using
        redactedOkFields_redactFields fields

theorem redactedOkList_redactList :
    ∀ vs, LlmHttpClient.redactedOkList (LlmHttpClient.redactSensitiveList vs) = true
  | [] => rfl
  | v :: rest => by
      simp [LlmHttpClient.redactSensitiveList, LlmHttpClient.redactedOkList,
        redactedOk_redact v, redactedOkList_redactList rest]

theorem redactedOkFields_redactFields :
    ∀ fs, LlmHttpClient.redactedOkFields (LlmHttpClient.redactSensitiveFields fs) = true
  | [] => rfl
  | (k, v) :: rest => by
      by_cases hk : k ∈ LlmHttpClient.SENSITIVE_KEYS
      · have hc : LlmHttpClient.SENSITIVE_KEYS.contains k = true := by simpa using hk
        simp only [LlmHttpClient.redactSensitiveFields, hc]
        simp [LlmHttpClient.redactedOkFields, hk, redactedOkFields_redactFields rest]
      · have hc : LlmHttpClient.SENSITIVE_KEYS.contains k = false := by simpa using hk
        simp only [LlmHttpClient.redactSensitiveFields, hc]
        simp [LlmHttpClient.redactedOkFields, hk, redactedOk_redact v,
          redactedOkFields_redactFields rest]

end

mutual

theorem redact_id_of_noSensitive :
    ∀ v, LlmHttpClient.hasSensitiveKey v = false → LlmHttpClient.redactSensitive v = v
  | .null, _ => rfl
  | .bool b, _ => rfl
  | .num n, _ => rfl
  | .str s, _ => rfl
  | .arr items, h => by
      simp only [LlmHttpClient.hasSensitiveKey] at h
      simp [LlmHttpClient.redactSensitive, redactList_id_of_noSensitive items h]
  | .obj fields, h => by
      simp only [LlmHttpClient.hasSensitiveKey] at h
      simp [LlmHttpClient.redactSensitive, redactFields_id_of_noSensitive fields h]

theorem redactList_id_of_noSensitive :
    ∀ vs, LlmHttpClient.hasSensitiveKeyList vs = false →
      LlmHttpClient.redactSensitiveList vs = vs
  | [], _ => rfl
  | v :: rest, h => by
      simp only [LlmHttpClient.hasSensitiveKeyList, Bool.or_eq_false_iff] at h
      simp [LlmHttpClient.redactSensitiveList, redact_id_of_noSensitive v h.1,
        redactList_id_of_noSensitive rest h.2]

theorem redactFields_id_of_noSensitive :
    ∀ fs, LlmHttpClient.hasSensitiveKeyFields fs = false →
      LlmHttpClient.redactSensitiveFields fs = fs
  | [], _ => rfl
  | (k, v) :: rest, h => by
      simp only [LlmHttpClient.hasSensitiveKeyFields, Bool.or_eq_false_iff] at h
      simp only [LlmHttpClient.redactSensitiveFields, h.1.1]
      simp [redact_id_of_noSensitive v h.1.2, redactFields_id_of_noSensitive rest h.2]

end

end RedactionLemmas

/-- C8: the redaction function replaces the value of every field named
accessToken, token, id_token, password or Authorization, at any nesting
depth, by the string "REDACTED" (so the literal secret value of such a
field never survives at its position in the logged output), and passes any
value containing no sensitive field name through unchanged. -/
theorem redactSensitive_never_leaks (v : JsValue) :
    LlmHttpClient.redactedOk (LlmHttpClient.redactSensitive v) = true ∧
    (LlmHttpClient.hasSensitiveKey v = false → LlmHttpClient.redactSensitive v = v) :=
  ⟨redactedOk_redact v, redact_id_of_noSensitive v⟩

/-- Witness for redactSensitive_never_leaks: a request object carrying an
Authorization header, a password and a nested token is fully redacted, and
an object with no sensitive keys passes through unchanged. -/
theorem redactSensitive_never_leaks_witness :
    LlmHttpClient.redactedOk (LlmHttpClient.redactSensitive (JsValue.obj
      [("Authorization", JsValue.str "Bearer secret-token-123"),
       ("password", JsValue.str "hunter2"),
       ("body", JsValue.obj [("token", JsValue.str "t0k"), ("model", JsValue.str "gemini")])]))
      = true ∧
    (LlmHttpClient.hasSensitiveKey (JsValue.obj [("model", JsValue.str "gemini")]) = false →
      LlmHttpClient.redactSensitive (JsValue.obj [("model", JsValue.str "gemini")]) =
        JsValue.obj [("model", JsValue.str "gemini")]) :=
  ⟨(redactSensitive_never_leaks _).1, (redactSensitive_never_leaks _).2⟩

/-- C9: with countTokens disabled in the availability config, the gate's
countTokens returns the local estimator result without delegating to the
wrapped generator (hence no network call), warns exactly when the warning
has not been shown before (so on the first invocation of a fresh gate),
records the warning as shown, and never warns on a subsequent invocation of
the same gate instance. -/
theorem enterprise_countTokens_fallback (cfg : EnterpriseContentGenerator.EnterpriseEndpointConfig)
    (st : EnterpriseContentGenerator.GateState) (contents contents' : JsValue)
    (hoff : cfg.countTokens = false) :
    (EnterpriseContentGenerator.countTokens cfg st contents).1 =
      .estimated (ContentGenerator.estimateTokenCount contents) ∧
    (EnterpriseContentGenerator.countTokens cfg st contents).2.1 =
      !st.warningsShown.contains "countTokens" ∧
    (EnterpriseContentGenerator.countTokens cfg st contents).2.2.warningsShown.contains
      "countTokens" = true ∧
    (EnterpriseContentGenerator.countTokens cfg
      (EnterpriseContentGenerator.countTokens cfg st contents).2.2 contents').2.1 = false := by
  by_cases hmem : "countTokens" ∈ st.warningsShown
  · have hshown : st.warningsShown.contains "countTokens" = true := by simpa using hmem
    simp [EnterpriseContentGenerator.countTokens, EnterpriseContentGenerator.showWarningOnce,
      hoff, hshown, hmem]
  · have hshown : st.warningsShown.contains "countTokens" = false := by simpa using hmem
    simp [EnterpriseContentGenerator.countTokens, EnterpriseContentGenerator.showWarningOnce,
      hoff, hshown, hmem]

/-- Witness for enterprise_countTokens_fallback on a fresh gate with the
default enterprise endpoint config (countTokens disabled) and the spec's
example content "hello world" (estimate 3). -/
theorem enterprise_countTokens_fallback_witness :
    (⟨true, false, false, true⟩ :
      EnterpriseContentGenerator.EnterpriseEndpointConfig).countTokens = false ∧
    ((EnterpriseContentGenerator.countTokens ⟨true, false, false, true⟩ ⟨[]⟩
        (JsValue.str "hello world")).1 = .estimated 3 ∧
     (EnterpriseContentGenerator.countTokens ⟨true, false, false, true⟩ ⟨[]⟩
        (JsValue.str "hello world")).2.1 = true ∧
     (EnterpriseContentGenerator.countTokens ⟨true, false, false, true⟩
        (EnterpriseContentGenerator.countTokens ⟨true, false, false, true⟩ ⟨[]⟩
          (JsValue.str "hello world")).2.2 JsValue.null).2.1 = false) := by
  have h := enterprise_countTokens_fallback ⟨true, false, false, true⟩ ⟨[]⟩
    (JsValue.str "hello world") JsValue.null rfl
  refine ⟨rfl, h.1, ?_, h.2.2.2⟩
  rw [h.2.1]
  rfl

/-- C5 counterexample: a cached credential that is valid by the claim's
definition (expires_at strictly greater than now) but whose token is the
empty string is not returned: JavaScript truthiness rejects it and getToken
performs an SSO network call even though the claim requires zero. -/
theorem getToken_falsy_cached_token_cex :
    ¬ ((SsoAuthClient.getToken "https://sso.example.com/token"
        (SsoAuthClient.CacheState.stored (JsValue.str "") 5000) 0
        (some ("fresh-token", 3600))).networkCalls = 0) := by
  intro h
  simp [SsoAuthClient.getToken, SsoAuthClient.getTokenFromCache, truthy] at h

/-- C5 (amended): when the cache holds an unexpired credential whose token
is truthy (in particular a nonempty token string), getToken returns the
cached token with zero network calls and leaves the cache unchanged; when
the cached credential is absent, unparseable, expired, or holds a falsy
token, getToken performs exactly one SSO network call and, when that call
succeeds, persists the new token with expiry now + expires_in * 1000 before
returning it. -/
theorem getToken_cache_behavior :
    (∀ (url : String) (now exp : Int) (tok : JsValue) (sso : Option (String × Int)),
      url ≠ "" → now < exp → truthy tok = true →
      SsoAuthClient.getToken url (.stored tok exp) now sso = ⟨.ok tok, 0, .stored tok exp⟩) ∧
    (∀ (url : String) (cache : SsoAuthClient.CacheState) (now : Int)
        (idToken : String) (expiresIn : Int),
      url ≠ "" →
      truthy ((SsoAuthClient.getTokenFromCache cache now).getD .null) = false →
      SsoAuthClient.getToken url cache now (some (idToken, expiresIn)) =
        ⟨.ok (.str idToken), 1, .stored (.str idToken) (now + expiresIn * 1000)⟩) := by
  constructor
  · intro url now exp tok sso hurl hexp htok
    simp [SsoAuthClient.getToken, SsoAuthClient.getTokenFromCache, hurl, hexp, htok]
  · intro url cache now idToken expiresIn hurl hfalsy
    simp [SsoAuthClient.getToken, hurl, hfalsy]

/-- Witness for getToken_cache_behavior: a valid truthy cached token is
served from cache with no network call, and an expired cache triggers one
SSO call whose result is persisted. -/
theorem getToken_cache_behavior_witness :
    ("https://sso.example.com/token" ≠ "" ∧ (0 : Int) < 5000 ∧
      truthy (JsValue.str "cached-tok") = true ∧
      SsoAuthClient.getToken "https://sso.example.com/token"
        (.stored (JsValue.str "cached-tok") 5000) 0 (some ("fresh", 3600)) =
        ⟨.ok (JsValue.str "cached-tok"), 0, .stored (JsValue.str "cached-tok") 5000⟩) ∧
    (truthy ((SsoAuthClient.getTokenFromCache (.stored (JsValue.str "old") 100) 200).getD
        .null) = false ∧
      SsoAuthClient.getToken "https://sso.example.com/token"
        (.stored (JsValue.str "old") 100) 200 (some ("fresh", 3600)) =
        ⟨.ok (JsValue.str "fresh"), 1, .stored (JsValue.str "fresh") (200 + 3600 * 1000)⟩) := by
  have hurl : "https://sso.example.com/token" ≠ "" := by decide
  refine ⟨⟨hurl, by norm_num, rfl, ?_⟩, ⟨rfl, ?_⟩⟩
  · exact getToken_cache_behavior.1 _ 0 5000 (JsValue.str "cached-tok") _ hurl (by norm_num) rfl
  · exact getToken_cache_behavior.2 _ (.stored (JsValue.str "old") 100) 200 "fresh" 3600 hurl rfl

/-- C6 counterexample: the setTokenInCache trace is a single direct
fs.promises.writeFile to the final cache path with no temporary file and no
rename, so it does not satisfy the write-then-rename atomicity the claim
asserts. -/
theorem setTokenInCache_not_write_then_rename_cex :
    ¬ SsoAuthClient.specAtomicWriteThenRename
        (SsoAuthClient.setTokenInCacheOps "tok" 3600 0) SsoAuthClient.cachePath := by
  intro h
  exact h.2 (JsValue.obj [("token", .str "tok"), ("expires_at", .num (0 + 3600 * 1000))])
    (by simp [SsoAuthClient.setTokenInCacheOps, SsoAuthClient.cachePath])

/-- C6 (amended): setTokenInCache persists the credential with expiry
computed as now + expiresInSeconds * 1000 and wholly overwrites any prior
cached value (the resulting cache file content is the new credential
regardless of the previous filesystem state), but it does so with a single
direct writeFile to the cache path rather than an atomic write-then-rename. -/
theorem setTokenInCache_persists (token : String) (expiresIn now : Int)
    (fs : String → Option JsValue) :
    SsoAuthClient.applyFsOps fs (SsoAuthClient.setTokenInCacheOps token expiresIn now)
      SsoAuthClient.cachePath =
      some (JsValue.obj [("token", .str token),
        ("expires_at", .num (now + expiresIn * 1000))]) := by
  simp [SsoAuthClient.applyFsOps, SsoAuthClient.setTokenInCacheOps, SsoAuthClient.applyFsOp]

/-- C2 counterexample: when the backend call of generateContentStream
succeeds with an array body of two elements, the fake-stream generator
yields two chunks, not exactly one. -/
theorem generateContentStream_multi_yield_cex :
    ¬ ∃ r, LlmHttpClient.generateContentStream
        (Except.ok (JsValue.arr [JsValue.obj [("candidates", JsValue.arr [])],
          JsValue.obj [("candidates", JsValue.arr [])]]))
        (Except.ok JsValue.null) = Except.ok [r] := by
  intro ⟨r, hr⟩
  simp [LlmHttpClient.generateContentStream] at hr

/-- C2 (amended): on a successful backend call the fake-stream generator
yields one chunk per element when the response body is an array (so zero
chunks for an empty array and n chunks for n elements), exactly one chunk
equal to the body when the body is a truthy non-array, and zero chunks when
the body is falsy; only in the truthy non-array case is the result a
one-element sequence. -/
theorem generateContentStream_yield_shape :
    (∀ (items : List JsValue) (fb : Except String JsValue),
      LlmHttpClient.generateContentStream (.ok (.arr items)) fb = .ok items) ∧
    (∀ (d : JsValue) (fb : Except String JsValue),
      (∀ items, d ≠ JsValue.arr items) → truthy d = true →
      LlmHttpClient.generateContentStream (.ok d) fb = .ok [d]) ∧
    (∀ (d : JsValue) (fb : Except String JsValue),
      (∀ items, d ≠ JsValue.arr items) → truthy d = false →
      LlmHttpClient.generateContentStream (.ok d) fb = .ok []) := by
  refine ⟨fun items fb => rfl, fun d fb hna htr => ?_, fun d fb hna htr => ?_⟩
  · cases d with
    | arr items => exact absurd rfl (hna items)
    | null => simp [truthy] at htr
    | bool b => simp [LlmHttpClient.generateContentStream, htr]
    | num n => simp [LlmHttpClient.generateContentStream, htr]
    | str s => simp [LlmHttpClient.generateContentStream, htr]
    | obj fields => simp [LlmHttpClient.generateContentStream, htr]
  · cases d with
    | arr items => exact absurd rfl (hna items)
    | null => rfl
    | bool b => simp [LlmHttpClient.generateContentStream, htr]
    | num n => simp [LlmHttpClient.generateContentStream, htr]
    | str s => simp [LlmHttpClient.generateContentStream, htr]
    | obj fields => simp [truthy] at htr

/-- Witness for generateContentStream_yield_shape: a two-element array body
yields both elements, a truthy object body yields itself once, and a null
body yields nothing. -/
theorem generateContentStream_yield_shape_witness :
    LlmHttpClient.generateContentStream
      (Except.ok (JsValue.arr [JsValue.num 1, JsValue.num 2])) (Except.ok JsValue.null) =
      Except.ok [JsValue.num 1, JsValue.num 2] ∧
    ((∀ items, JsValue.obj [("candidates", JsValue.arr [])] ≠ JsValue.arr items) ∧
      truthy (JsValue.obj [("candidates", JsValue.arr [])]) = true ∧
      LlmHttpClient.generateContentStream
        (Except.ok (JsValue.obj [("candidates", JsValue.arr [])])) (Except.ok JsValue.null) =
        Except.ok [JsValue.obj [("candidates", JsValue.arr [])]]) ∧
    ((∀ items, JsValue.null ≠ JsValue.arr items) ∧ truthy JsValue.null = false ∧
      LlmHttpClient.generateContentStream (Except.ok JsValue.null) (Except.ok JsValue.null) =
        Except.ok []) := by
  have hna1 : ∀ items, JsValue.obj [("candidates", JsValue.arr [])] ≠ JsValue.arr items :=
    fun items h => nomatch h
  have hna2 : ∀ items, JsValue.null ≠ JsValue.arr items := fun items h => nomatch h
  exact ⟨generateContentStream_yield_shape.1 _ _,
    ⟨hna1, rfl, generateContentStream_yield_shape.2.1 _ _ hna1 rfl⟩,
    ⟨hna2, rfl, generateContentStream_yield_shape.2.2 _ _ hna2 rfl⟩⟩

/-- C7 counterexample: a generation config whose systemInstruction is the
empty string "" serializes to a body with no systemInstruction block at
all — the falsy-guarded spread drops it — so the claim's promised
role-tagged block is absent for X = "". -/
theorem generateContent_empty_systemInstruction_cex :
    LlmHttpClient.generateContentBody (JsValue.arr [])
      [("systemInstruction", JsValue.str "")] = [("contents", JsValue.arr [])] := rfl

/-- C7 (amended): a generation config carrying a truthy (nonempty)
systemInstruction string X serializes with the role-tagged block
(role: system, parts: [(text: X)]) under the systemInstruction key (an
empty-string systemInstruction is falsy and is dropped instead), and a
config with no remaining generation-config fields after the destructuring
omits the generationConfig key entirely. -/
theorem generateContent_serialization :
    (∀ (contents : JsValue) (config : List (String × JsValue)) (X : String),
      X ≠ "" → List.lookup "systemInstruction" config = some (JsValue.str X) →
      List.lookup "systemInstruction" (LlmHttpClient.generateContentBody contents config) =
        some (JsValue.obj [("role", .str "system"),
          ("parts", .arr [.obj [("text", JsValue.str X)]])])) ∧
    (∀ (contents : JsValue) (config : List (String × JsValue)),
      config.filter (fun kv => !(LlmHttpClient.DESTRUCTURED_KEYS.contains kv.1)) = [] →
      List.lookup "generationConfig" (LlmHttpClient.generateContentBody contents config) =
        none) := by
  constructor
  · intro contents config X hX hsi
    have htr : truthy (JsValue.str X) = true := by simp [truthy, hX]
    simp only [LlmHttpClient.generateContentBody, hsi, Option.getD_some, htr, if_true]
    simp [List.lookup]
  · intro contents config hfilter
    simp only [LlmHttpClient.generateContentBody, hfilter]
    repeat' split
    all_goals simp_all [List.lookup]

/-- Witness for generateContent_serialization at a concrete config carrying
systemInstruction "X" and nothing else. -/
theorem generateContent_serialization_witness :
    ("X" ≠ "" ∧
      List.lookup "systemInstruction" [("systemInstruction", JsValue.str "X")] =
        some (JsValue.str "X") ∧
      List.lookup "systemInstruction"
        (LlmHttpClient.generateContentBody (JsValue.arr [])
          [("systemInstruction", JsValue.str "X")]) =
        some (JsValue.obj [("role", .str "system"),
          ("parts", .arr [.obj [("text", JsValue.str "X")]])])) ∧
    (([("systemInstruction", JsValue.str "X")] :
        List (String × JsValue)).filter
          (fun kv => !(LlmHttpClient.DESTRUCTURED_KEYS.contains kv.1)) = [] ∧
      List.lookup "generationConfig"
        (LlmHttpClient.generateContentBody (JsValue.arr [])
          [("systemInstruction", JsValue.str "X")]) = none) := by
  have hX : "X" ≠ "" := by decide
  refine ⟨⟨hX, rfl, generateContent_serialization.1 _ _ "X" hX rfl⟩,
    ⟨by rfl, generateContent_serialization.2 _ _ (by rfl)⟩⟩

section RetryLemmas

theorem classify_of_retryable (o : LlmHttpClient.AttemptOutcome)
    (h : LlmHttpClient.isRetryableFailure o = true) :
    ∃ e, LlmHttpClient.classifyAttempt o = .failure e true := by
  unfold LlmHttpClient.isRetryableFailure at h
  cases hc : LlmHttpClient.classifyAttempt o with
  | success s d => rw [hc] at h; exact absurd h (by simp)
  | failure e r => rw [hc] at h; simp at h; subst h; exact ⟨e, rfl⟩

theorem requestLoop_zero (t : Nat → LlmHttpClient.AttemptOutcome) (m a : Nat)
    (le : Option LlmHttpClient.LastError) (ds : List Nat) :
    LlmHttpClient.requestLoop t m a 0 le ds =
      ⟨.error (LlmHttpClient.consolidatedErrorMessage le), a, ds⟩ := rfl

theorem requestLoop_succ (t : Nat → LlmHttpClient.AttemptOutcome) (m a f : Nat)
    (le : Option LlmHttpClient.LastError) (ds : List Nat) :
    LlmHttpClient.requestLoop t m a (f + 1) le ds =
      match LlmHttpClient.classifyAttempt (t a) with
      | .success status data => ⟨.ok (status, data), a + 1, ds⟩
      | .failure err retryable =>
          if a + 1 ≥ m ∨ retryable = false then
            ⟨.error (LlmHttpClient.consolidatedErrorMessage (some err)), a + 1, ds⟩
          else
            LlmHttpClient.requestLoop t m (a + 1) f (some err) (ds ++ [300 * 2 ^ a]) := rfl

theorem requestLoop_all_retryable (t : Nat → LlmHttpClient.AttemptOutcome) (m : Nat)
    (hall : ∀ k, k < m → LlmHttpClient.isRetryableFailure (t k) = true) :
    ∀ (fuel a : Nat) (le : Option LlmHttpClient.LastError) (ds : List Nat),
      a + fuel = m → fuel ≠ 0 →
      ∃ err, LlmHttpClient.requestLoop t m a fuel le ds =
        ⟨.error (LlmHttpClient.consolidatedErrorMessage (some err)), m,
          ds ++ (List.range' a (fuel - 1)).map (fun k => 300 * 2 ^ k)⟩ := by
  intro fuel
  induction fuel with
  | zero => intro a le ds _ hne; exact absurd rfl hne
  | succ f ih =>
      intro a le ds hsum _
      have ha : a < m := by omega
      obtain ⟨err, herr⟩ := classify_of_retryable (t a) (hall a ha)
      cases f with
      | zero =>
          have hm : a + 1 = m := by omega
          refine ⟨err, ?_⟩
          rw [requestLoop_succ]
          simp only [herr]
          rw [if_pos (Or.inl (by omega))]
          simp [hm]
      | succ g =>
          obtain ⟨err', herr'⟩ := ih (a + 1) (some err) (ds ++ [300 * 2 ^ a]) (by omega)
            (by omega)
          refine ⟨err', ?_⟩
          rw [requestLoop_succ]
          simp only [herr]
          rw [if_neg (by push_neg; exact ⟨by omega, by simp⟩)]
          rw [herr']
          simp [List.range'_succ, List.append_assoc]

end RetryLemmas

/-- C1: the transport layer retry policy of requestWithHandling. A first
attempt failing with a 4xx response is never retried, and the call surfaces
the consolidated error after exactly 1 transport attempt with no backoff
delay. A call whose first two attempts fail with a 500 response and whose
third attempt succeeds returns the success result after exactly 3 transport
attempts, sleeping the doubling delays 300 then 600 between consecutive
attempts. When every attempt fails retryably (a 5xx response or a
network-level failure with no response), the call performs exactly the
configured maximum number of attempts and sleeps base 300 * 2^(attempt-1)
milliseconds after each non-final attempt. The configured maximum defaults
to 3 when absent. -/
theorem requestWithHandling_retry_policy :
    (∀ (t : Nat → LlmHttpClient.AttemptOutcome) (s : Nat) (st url : String) (d : JsValue),
      t 0 = .rejectedResponse s st url d → 400 ≤ s → s < 500 →
      LlmHttpClient.requestWithHandling t none =
        ⟨.error (LlmHttpClient.consolidatedErrorMessage
          (some (.withResponse s st url d))), 1, []⟩) ∧
    (∀ (t : Nat → LlmHttpClient.AttemptOutcome) (st1 u1 st2 u2 : String) (d1 d2 dd : JsValue),
      t 0 = .rejectedResponse 500 st1 u1 d1 → t 1 = .rejectedResponse 500 st2 u2 d2 →
      t 2 = .resolved 200 dd →
      LlmHttpClient.requestWithHandling t none = ⟨.ok (200, dd), 3, [300, 600]⟩) ∧
    (∀ (t : Nat → LlmHttpClient.AttemptOutcome) (n : Nat),
      1 ≤ n → (∀ k, k < n → LlmHttpClient.isRetryableFailure (t k) = true) →
      ∃ err, LlmHttpClient.requestWithHandling t (some n) =
        ⟨.error (LlmHttpClient.consolidatedErrorMessage (some err)), n,
          (List.range (n - 1)).map (fun k => 300 * 2 ^ k)⟩) ∧
    (∀ (t : Nat → LlmHttpClient.AttemptOutcome),
      LlmHttpClient.requestWithHandling t none = LlmHttpClient.requestWithHandling t (some 3)) :=
  by
  refine ⟨?_, ?_, ?_, fun t => rfl⟩
  · intro t s st url d h0 hs4 hs5
    have hdec : decide (500 ≤ s ∧ s < 600) = false := by
      simp only [decide_eq_false_iff_not]
      omega
    unfold LlmHttpClient.requestWithHandling
    simp only [Option.getD_none]
    rw [show (3 : Nat) = 2 + 1 from rfl, requestLoop_succ]
    simp only [h0, LlmHttpClient.classifyAttempt, hdec]
    rw [if_pos (Or.inr trivial)]
  · intro t st1 u1 st2 u2 d1 d2 dd h0 h1 h2
    unfold LlmHttpClient.requestWithHandling
    simp only [Option.getD_none]
    rw [show (3 : Nat) = 2 + 1 from rfl, requestLoop_succ]
    simp only [h0, LlmHttpClient.classifyAttempt]
    rw [if_neg (by norm_num)]
    rw [show (2 : Nat) = 1 + 1 from rfl, requestLoop_succ]
    norm_num
    simp only [h1, LlmHttpClient.classifyAttempt]
    rw [if_neg (by norm_num)]
    rw [requestLoop_succ]
    norm_num
    simp only [h2, LlmHttpClient.classifyAttempt]
    norm_num
  · intro t n hn hall
    obtain ⟨err, herr⟩ := requestLoop_all_retryable t n hall n 0 none [] (by omega) (by omega)
    refine ⟨err, ?_⟩
    unfold LlmHttpClient.requestWithHandling
    simp only [Option.getD_some]
    rw [herr]
    simp [List.range_eq_range']

/-- Witness for requestWithHandling_retry_policy at concrete transports:
a constant 400 transport (one attempt, no delay), a 500-500-success
transport (three attempts, delays 300 and 600), and a constant
network-error transport with the default maximum of three attempts. -/
theorem requestWithHandling_retry_policy_witness :
    (LlmHttpClient.requestWithHandling
      (fun _ => .rejectedResponse 400 "Bad Request" "https://proxy.example/gen" JsValue.null)
      none =
      ⟨.error (LlmHttpClient.consolidatedErrorMessage
        (some (.withResponse 400 "Bad Request" "https://proxy.example/gen" JsValue.null))),
        1, []⟩) ∧
    (LlmHttpClient.requestWithHandling
      (fun k => if k = 0 then .rejectedResponse 500 "" "https://u" JsValue.null
        else if k = 1 then .rejectedResponse 500 "" "https://u" JsValue.null
        else .resolved 200 (JsValue.obj [("candidates", JsValue.arr [])])) none =
      ⟨.ok (200, JsValue.obj [("candidates", JsValue.arr [])]), 3, [300, 600]⟩) ∧
    (∃ err, LlmHttpClient.requestWithHandling
      (fun _ => .rejectedNetwork none "socket hang up") (some 3) =
      ⟨.error (LlmHttpClient.consolidatedErrorMessage (some err)), 3,
        (List.range 2).map (fun k => 300 * 2 ^ k)⟩) := by
  refine ⟨?_, ?_, ?_⟩
  · exact requestWithHandling_retry_policy.1 _ 400 "Bad Request" "https://proxy.example/gen"
      JsValue.null rfl (by norm_num) (by norm_num)
  · exact requestWithHandling_retry_policy.2.1 _ "" "https://u" "" "https://u"
      JsValue.null JsValue.null (JsValue.obj [("candidates", JsValue.arr [])]) rfl rfl rfl
  · exact requestWithHandling_retry_policy.2.2.1 _ 3 (by norm_num) (fun k _ => rfl)

section CountTokensLemmas

theorem includes404_of_404 (st url : String) (d : JsValue) :
    LlmHttpClient.jsIncludes "404"
      (LlmHttpClient.consolidatedErrorMessage (some (.withResponse 404 st url d))) = true := by
  simp only [LlmHttpClient.consolidatedErrorMessage, LlmHttpClient.jsIncludes]
  rw [decide_eq_true_eq]
  have hT : toString (404 : Nat) = "404" := rfl
  cases htr : truthy d with
  | true =>
      simp only [htr, if_true, hT]
      refine ⟨"[LlmHttpClient] Request failed: HTTP ".data,
        (" " ++ st ++ " at " ++ url ++ "\nResponse: " ++
          jsonStringify (LlmHttpClient.redactSensitive d)).data, ?_⟩
      simp [String.data_append, List.append_assoc]
  | false =>
      simp only [htr, Bool.false_eq_true, if_false, hT]
      refine ⟨"[LlmHttpClient] Request failed: HTTP ".data,
        (" " ++ st ++ " at " ++ url).data, ?_⟩
      simp [String.data_append, List.append_assoc]

end CountTokensLemmas

set_option maxRecDepth 8192

/-- C4 counterexample: a countTokens request failing with a 400 response (a
non-404 client error) whose request URL happens to contain "404" (here via
the model name gemini-404) is absorbed into the estimator fallback instead
of being propagated, because the fallback tests err.message.includes('404')
on the consolidated message, which embeds the URL. -/
theorem countTokens_nonNotFound_absorbed_cex :
    LlmHttpClient.countTokens
      (fun _ => .rejectedResponse 400 ""
        "https://proxy.example/v1/projects/p/locations/l/publishers/google/models/gemini-404:countTokens"
        JsValue.null)
      none (JsValue.str "hello") =
      .ok (JsValue.obj [("totalTokens", JsValue.num 2)]) := rfl

/-- C4 (amended): the countTokens fallback is keyed on the substring "404"
occurring in the consolidated error message. Every failure carrying an HTTP
404 response is absorbed into (totalTokens: estimateTokenCount(contents)),
and every failure whose consolidated message does not contain "404" — in
particular a typical non-404 client error or exhausted server-error/network
retries with a 404-free URL, status text and body — is propagated; but a
non-404 failure whose message happens to contain "404" (for example in the
URL) is also absorbed rather than propagated. -/
theorem countTokens_fallback :
    (∀ (t : Nat → LlmHttpClient.AttemptOutcome) (cfg : Option Nat) (contents : JsValue)
        (st url : String) (d : JsValue),
      1 ≤ cfg.getD 3 → t 0 = .rejectedResponse 404 st url d →
      LlmHttpClient.countTokens t cfg contents =
        .ok (.obj [("totalTokens", .num (LlmHttpClient.estimateTokenCount contents))])) ∧
    (∀ (t : Nat → LlmHttpClient.AttemptOutcome) (cfg : Option Nat) (contents : JsValue)
        (msg : String),
      (LlmHttpClient.requestWithHandling t cfg).outcome = .error msg →
      LlmHttpClient.jsIncludes "404" msg = false →
      LlmHttpClient.countTokens t cfg contents = .error msg) := by
  constructor
  · intro t cfg contents st url d hmax h0
    have hdec : decide (500 ≤ 404 ∧ 404 < 600) = false := by decide
    have hrun : LlmHttpClient.requestWithHandling t cfg =
        ⟨.error (LlmHttpClient.consolidatedErrorMessage
          (some (.withResponse 404 st url d))), 1, []⟩ := by
      unfold LlmHttpClient.requestWithHandling
      obtain ⟨mm, hm⟩ : ∃ mm, cfg.getD 3 = mm + 1 := ⟨cfg.getD 3 - 1, by omega⟩
      rw [hm, requestLoop_succ]
      simp only [h0, LlmHttpClient.classifyAttempt, hdec]
      rw [if_pos (Or.inr trivial)]
    simp [LlmHttpClient.countTokens, hrun, includes404_of_404]
  · intro t cfg contents msg hout hinc
    unfold LlmHttpClient.countTokens
    cases hrw : LlmHttpClient.requestWithHandling t cfg with
    | mk outcome attempts delays =>
        rw [hrw] at hout
        cases outcome with
        | ok p => simp at hout
        | error m =>
            simp only [Except.error.injEq] at hout
            subst hout
            simp [hinc]

/-- Witness for countTokens_fallback: a constant 404 transport triggers the
estimator fallback, and a constant 400 transport with a 404-free URL
propagates the consolidated error. -/
theorem countTokens_fallback_witness :
    (1 ≤ (none : Option Nat).getD 3 ∧
      LlmHttpClient.countTokens
        (fun _ => .rejectedResponse 404 "Not Found" "https://proxy.example/count" JsValue.null)
        none (JsValue.str "hello") =
        .ok (.obj [("totalTokens",
          .num (LlmHttpClient.estimateTokenCount (JsValue.str "hello")))])) ∧
    ((LlmHttpClient.requestWithHandling
        (fun _ => .rejectedResponse 400 "Bad Request" "https://proxy.example/path" JsValue.null)
        none).outcome =
      .error (LlmHttpClient.consolidatedErrorMessage
        (some (.withResponse 400 "Bad Request" "https://proxy.example/path" JsValue.null))) ∧
     LlmHttpClient.jsIncludes "404"
       (LlmHttpClient.consolidatedErrorMessage
         (some (.withResponse 400 "Bad Request" "https://proxy.example/path" JsValue.null))) =
       false ∧
     LlmHttpClient.countTokens
       (fun _ => .rejectedResponse 400 "Bad Request" "https://proxy.example/path" JsValue.null)
       none (JsValue.str "hello") =
       .error (LlmHttpClient.consolidatedErrorMessage
         (some (.withResponse 400 "Bad Request" "https://proxy.example/path" JsValue.null)))) := by
  refine ⟨⟨by norm_num, ?_⟩, ⟨rfl, rfl, ?_⟩⟩
  · exact countTokens_fallback.1 _ none (JsValue.str "hello") "Not Found"
      "https://proxy.example/count" JsValue.null (by norm_num) rfl
  · exact countTokens_fallback.2 _ none (JsValue.str "hello") _ rfl rfl
